import Mathlib

-- Verification of the streaming-payments accrual ledger
-- (Coxygen-Salary-Payroll-System, frontend simulation in part_000).
--
-- Embedding conventions:
--  * Amounts and rates are exact rationals (ℚ); the source uses JS binary
--    floating point, and its 1e-6 epsilon comparisons are carried over
--    literally as exact rational comparisons.
--  * Instants are rationals in milliseconds, matching Date.getTime(); rates
--    are per second, so accrual divides elapsed milliseconds by 1000 exactly
--    as the source does.
--  * Date.now() is modelled as an injected instant.  claimForStream reads the
--    clock twice (lines 280 and 287 of part_000) in straight-line synchronous
--    code; both reads are modelled as the same instant.
--  * The process-wide streams array is a List Stream; the in-place mutation
--    of the first stream found by id is modelled by a structural recursion
--    that rebuilds the list with the first matching element updated.

namespace Streaming

/-- Status values taken by the status field of a stream record: the source
stores the strings Active, Cancelled and Paid. -/
inductive Status where
  | Active
  | Cancelled
  | Paid
deriving DecidableEq, Repr

/-- Stream record as created by createStreamObject (part_000 lines 47-59).
The end field of the JS object is named endTime here because end is a Lean
keyword. -/
structure Stream where
  id : Nat
  sender : String
  recipient : String
  total : ℚ
  rate : ℚ
  start : ℚ
  endTime : ℚ
  cancelledAt : Option ℚ
  claimed : ℚ
  status : Status
  createdAt : ℚ
deriving DecidableEq, Repr

/-- The 1e-6 tolerance used by the Paid checks in claimForStream and
cancelStream. -/
def eps : ℚ := 1 / 1000000

/-- Fixed per-minute rate used when no wallet amount is supplied
(part_000 line 11). -/
def FIXED_PER_MINUTE : ℚ := 1

/-- calcAccrued (part_000 lines 239-248): accrued amount up to now, not
subtracting claimed.  Times are milliseconds; rate is per second. -/
def calcAccrued (s : Stream) (now : ℚ) : ℚ :=
  if now ≤ s.start then 0
  else
    let effectiveEnd :=
      match s.cancelledAt with
      | some c => min s.endTime c
      | none => s.endTime
    let elapsed := min now effectiveEnd - s.start
    min (s.rate * (elapsed / 1000)) s.total

/-- Spec-side definition, following the words of spec section 4.1:
effectiveEnd(s) = min(s.end, s.cancelledAt) if cancelledAt is set, else
s.end. -/
def effectiveEndSpec (s : Stream) : ℚ :=
  match s.cancelledAt with
  | some c => min s.endTime c
  | none => s.endTime

/-- Spec-side definition, following the words of spec section 4.1:
accrued(s, now) = 0 if now <= s.start, otherwise
min(s.rate * (min(now, effectiveEnd(s)) - s.start), s.total) with elapsed
time in seconds (the stored instants are milliseconds, hence the division
by 1000). -/
def accruedSpec (s : Stream) (now : ℚ) : ℚ :=
  if now ≤ s.start then 0
  else min (s.rate * ((min now (effectiveEndSpec s) - s.start) / 1000)) s.total

/-- claimable as defined in spec section 4.1 and computed inline by the
source (part_000 line 282): max(0, accrued - claimed). -/
def claimable (s : Stream) (now : ℚ) : ℚ :=
  max 0 (calcAccrued s now - s.claimed)

/-- createStreamObject (part_000 lines 30-60).  uid() and the two Date.now()
reads are injected as newId and nowMs.  A null totalAda argument is
Option.none; the source condition totalAda !== null && totalAda > 0 selects
the wallet amount, otherwise the fixed per-minute policy applies. -/
def createStreamObject (recipient : String) (startMs endMs : ℚ)
    (totalAda : Option ℚ) (newId : Nat) (nowMs : ℚ) : Stream :=
  let seconds := max 1 ((endMs - startMs) / 1000)
  let minutes := seconds / 60
  let tr : ℚ × ℚ :=
    match totalAda with
    | some t =>
        if t > 0 then (t, t / seconds)
        else (FIXED_PER_MINUTE * minutes, FIXED_PER_MINUTE / 60)
    | none => (FIXED_PER_MINUTE * minutes, FIXED_PER_MINUTE / 60)
  { id := newId
    sender := "You (Local)"
    recipient := recipient
    total := tr.1
    rate := tr.2
    start := startMs
    endTime := endMs
    cancelledAt := none
    claimed := 0
    status := .Active
    createdAt := nowMs }

/-- JS String.prototype.toLowerCase as used by the source's identity
comparison: lowercases each character of the string. -/
def jsToLowerCase (s : String) : String :=
  String.mk (s.data.map Char.toLower)

/-- Outcomes of claimForStream, one per distinct control path of the source
(part_000 lines 272-294): early return on missing stream, early return on
recipient mismatch, early return on claimable <= 0, and the success alert
carrying the amount just claimed. -/
inductive ClaimOutcome where
  | streamNotFound
  | unauthorized
  | nothingToClaim
  | claimedAmount (amount : ℚ)
deriving DecidableEq, Repr

/-- Body of claimForStream acting on the stream found by id (part_000 lines
276-293).  The recipient check is the source's
!recipient || recipient.toLowerCase() !== String(s.recipient).toLowerCase().
Both Date.now() reads (lines 280 and 287) are the same injected now; the
second calcAccrued call is on the stream with claimed already updated, which
calcAccrued ignores. -/
def claimUpdate (s : Stream) (recipient : String) (now : ℚ) :
    ClaimOutcome × Stream :=
  if recipient = "" ∨ jsToLowerCase recipient ≠ jsToLowerCase s.recipient then
    (.unauthorized, s)
  else
    let accrued := calcAccrued s now
    let cl := max 0 (accrued - s.claimed)
    if cl ≤ 0 then (.nothingToClaim, s)
    else
      let s1 : Stream := { s with claimed := s.claimed + cl }
      if s1.claimed + eps ≥ min s1.total (calcAccrued s1 now) then
        (.claimedAmount cl, { s1 with status := .Paid })
      else
        (.claimedAmount cl, s1)

/-- claimForStream (part_000 lines 272-294): find the first stream with the
given id and apply claimUpdate to it, leaving every other stream unchanged. -/
def claimForStream : List Stream → Nat → String → ℚ → ClaimOutcome × List Stream
  | [], _, _, _ => (.streamNotFound, [])
  | s :: rest, id, recipient, now =>
    if s.id = id then
      ((claimUpdate s recipient now).1, (claimUpdate s recipient now).2 :: rest)
    else
      ((claimForStream rest id recipient now).1,
        s :: (claimForStream rest id recipient now).2)

/-- Outcomes of cancelStream, one per distinct control path of the source
(part_000 lines 250-270): silent return on missing stream, Not active alert,
and the success alert carrying the amount returned to the sender. -/
inductive CancelOutcome where
  | streamNotFound
  | notActive
  | returnedAmount (amount : ℚ)
deriving DecidableEq, Repr

/-- Body of cancelStream acting on the stream found by id (part_000 lines
253-269).  claimed is kept as-is in both branches; cancelledAt is set to now
in both branches. -/
def cancelUpdate (s : Stream) (now : ℚ) : CancelOutcome × Stream :=
  if s.status ≠ .Active then (.notActive, s)
  else
    let accrued := calcAccrued s now
    let returned := s.total - accrued
    if s.claimed + eps ≥ accrued then
      (.returnedAmount returned, { s with status := .Paid, cancelledAt := some now })
    else
      (.returnedAmount returned, { s with status := .Cancelled, cancelledAt := some now })

/-- cancelStream (part_000 lines 250-270): find the first stream with the
given id and apply cancelUpdate, leaving every other stream unchanged. -/
def cancelStream : List Stream → Nat → ℚ → CancelOutcome × List Stream
  | [], _, _ => (.streamNotFound, [])
  | s :: rest, id, now =>
    if s.id = id then
      ((cancelUpdate s now).1, (cancelUpdate s now).2 :: rest)
    else
      ((cancelStream rest id now).1, s :: (cancelStream rest id now).2)

/-- Modelled from the spec: the spec describes cancel(id, callerIdentity, now),
but the source's cancelStream (part_000 line 250) takes only the id and
performs no caller check at all.  Lifted to the spec's claimed signature, the
caller argument is unused. -/
def cancelWithCaller (streams : List Stream) (id : Nat) (_caller : String)
    (now : ℚ) : CancelOutcome × List Stream :=
  cancelStream streams id now

/-- updateStatuses (part_000 lines 304-317): the reconciler sweep marks every
Active stream whose end has been reached as Paid. -/
def updateStatuses (streams : List Stream) (now : ℚ) : List Stream :=
  streams.map fun s =>
    if s.status = .Active ∧ s.endTime ≤ now then { s with status := .Paid } else s

/-- One ledger operation of the system: a create (the new stream is pushed to
the array), a claim, a cancel, or a reconciler sweep, each at an arbitrary
injected instant and with arbitrary caller-supplied arguments. -/
inductive Step : List Stream → List Stream → Prop where
  | create (l : List Stream) (recipient : String) (startMs endMs : ℚ)
      (totalAda : Option ℚ) (newId : Nat) (nowMs : ℚ) :
      Step l (l ++ [createStreamObject recipient startMs endMs totalAda newId nowMs])
  | claim (l : List Stream) (id : Nat) (recipient : String) (now : ℚ) :
      Step l (claimForStream l id recipient now).2
  | cancel (l : List Stream) (id : Nat) (now : ℚ) :
      Step l (cancelStream l id now).2
  | reconcile (l : List Stream) (now : ℚ) :
      Step l (updateStatuses l now)

/-- States of the streams array reachable from the empty array by a sequence
of create/claim/cancel/reconcile operations. -/
inductive Reachable : List Stream → Prop where
  | nil : Reachable []
  | step {l l' : List Stream} : Reachable l → Step l l' → Reachable l'

/-- Invariant relating cancelledAt and status: a stream that carries a
cancellation timestamp is never Active. -/
def cancelInvariant (l : List Stream) : Prop :=
  ∀ s ∈ l, s.cancelledAt ≠ none → s.status ≠ Status.Active

/-- One operation preserves every already-set cancelledAt timestamp,
position by position. -/
def preservesCancelledAt (l l' : List Stream) : Prop :=
  ∀ (i : Nat) (h : i < l.length) (h' : i < l'.length) (t : ℚ),
    (l.get ⟨i, h⟩).cancelledAt = some t → (l'.get ⟨i, h'⟩).cancelledAt = some t

-- Concrete fixtures used by counterexamples and witnesses: the stream of
-- spec scenario 1 (total 100, rate 1 per second, 100-second window).

/-- Scenario stream: total 100, rate 1 ADA per second, start 0 ms,
end 100000 ms, Active, nothing claimed. -/
def sMid : Stream :=
  { id := 1, sender := "alice", recipient := "bob", total := 100, rate := 1,
    start := 0, endTime := 100000, cancelledAt := none, claimed := 0,
    status := .Active, createdAt := 0 }

/-- Same stream but already marked Paid (as the reconciler leaves it when
nobody claimed), nothing claimed yet. -/
def sPaid : Stream :=
  { sMid with status := .Paid }

/-- Stream produced by createStreamObject with a future start (10000 ms) and
then cancelled at instant 5000, before its start. -/
def sEarlyCancel : Stream :=
  { createStreamObject "bob" 10000 110000 (some 100) 1 0 with
      cancelledAt := some 5000, status := .Paid }

-- Helper lemmas about the per-stream bodies and the list recursions.

lemma calcAccrued_update_claimed_status (s : Stream) (x : ℚ) (st : Status) (now : ℚ) :
    calcAccrued { s with claimed := x, status := st } now = calcAccrued s now := rfl

lemma calcAccrued_update_claimed (s : Stream) (x : ℚ) (now : ℚ) :
    calcAccrued { s with claimed := x } now = calcAccrued s now := rfl

lemma calcAccrued_eq (s : Stream) (now : ℚ) :
    calcAccrued s now =
      if now ≤ s.start then 0
      else min (s.rate * ((min now (effectiveEndSpec s) - s.start) / 1000)) s.total := by
  cases h : s.cancelledAt <;> simp [calcAccrued, effectiveEndSpec, h]

lemma claimUpdate_cancelledAt (s : Stream) (r : String) (now : ℚ) :
    (claimUpdate s r now).2.cancelledAt = s.cancelledAt := by
  unfold claimUpdate
  split
  · rfl
  · dsimp only
    split
    · rfl
    · split <;> rfl

lemma claimUpdate_status (s : Stream) (r : String) (now : ℚ) :
    (claimUpdate s r now).2.status = s.status ∨
      (claimUpdate s r now).2.status = Status.Paid := by
  unfold claimUpdate
  split
  · exact Or.inl rfl
  · dsimp only
    split
    · exact Or.inl rfl
    · split
      · exact Or.inr rfl
      · exact Or.inl rfl

lemma cancelUpdate_notActive (s : Stream) (now : ℚ) (h : s.status ≠ .Active) :
    cancelUpdate s now = (.notActive, s) := by
  unfold cancelUpdate
  rw [if_pos h]

lemma claimUpdate_success (s : Stream) (r : String) (now : ℚ)
    (hr : r ≠ "") (hmatch : jsToLowerCase r = jsToLowerCase s.recipient)
    (h : s.claimed < calcAccrued s now) :
    claimUpdate s r now =
      (.claimedAmount (calcAccrued s now - s.claimed),
       { s with claimed := calcAccrued s now, status := .Paid }) := by
  have hcond : ¬(r = "" ∨ jsToLowerCase r ≠ jsToLowerCase s.recipient) := by
    push_neg
    exact ⟨hr, hmatch⟩
  have hmax : max 0 (calcAccrued s now - s.claimed) = calcAccrued s now - s.claimed :=
    max_eq_right (by linarith)
  have hpos : ¬(max 0 (calcAccrued s now - s.claimed) ≤ 0) := by
    rw [hmax]; linarith
  have hsum : s.claimed + (calcAccrued s now - s.claimed) = calcAccrued s now := by ring
  unfold claimUpdate
  rw [if_neg hcond]
  dsimp only
  rw [if_neg hpos, hmax]
  have hpay :
      ({ s with claimed := s.claimed + (calcAccrued s now - s.claimed)} : Stream).claimed
          + eps
        ≥ min ({ s with claimed := s.claimed + (calcAccrued s now - s.claimed)} : Stream).total
            (calcAccrued { s with claimed := s.claimed + (calcAccrued s now - s.claimed)} now) := by
    rw [calcAccrued_update_claimed]
    show min s.total (calcAccrued s now) ≤ s.claimed + (calcAccrued s now - s.claimed) + eps
    have h1 : min s.total (calcAccrued s now) ≤ calcAccrued s now := min_le_right _ _
    have h2 : (0 : ℚ) < eps := by norm_num [eps]
    linarith
  rw [if_pos hpay, hsum]

lemma claimForStream_append (l1 : List Stream) (s : Stream) (l2 : List Stream)
    (r : String) (now : ℚ) (h : ∀ x ∈ l1, x.id ≠ s.id) :
    claimForStream (l1 ++ s :: l2) s.id r now =
      ((claimUpdate s r now).1, l1 ++ (claimUpdate s r now).2 :: l2) := by
  induction l1 with
  | nil => simp [claimForStream]
  | cons a t ih =>
      have ha : a.id ≠ s.id := h a (List.mem_cons_self a t)
      have ht : ∀ x ∈ t, x.id ≠ s.id := fun x hx => h x (List.mem_cons_of_mem a hx)
      simp [claimForStream, ha, ih ht]

lemma claimForStream_notFound (l : List Stream) (id : Nat) (r : String) (now : ℚ)
    (h : ∀ x ∈ l, x.id ≠ id) :
    claimForStream l id r now = (.streamNotFound, l) := by
  induction l with
  | nil => rfl
  | cons a t ih =>
      have ha : a.id ≠ id := h a (List.mem_cons_self a t)
      have ht : ∀ x ∈ t, x.id ≠ id := fun x hx => h x (List.mem_cons_of_mem a hx)
      simp [claimForStream, ha, ih ht]

lemma cancelStream_append (l1 : List Stream) (s : Stream) (l2 : List Stream)
    (now : ℚ) (h : ∀ x ∈ l1, x.id ≠ s.id) :
    cancelStream (l1 ++ s :: l2) s.id now =
      ((cancelUpdate s now).1, l1 ++ (cancelUpdate s now).2 :: l2) := by
  induction l1 with
  | nil => simp [cancelStream]
  | cons a t ih =>
      have ha : a.id ≠ s.id := h a (List.mem_cons_self a t)
      have ht : ∀ x ∈ t, x.id ≠ s.id := fun x hx => h x (List.mem_cons_of_mem a hx)
      simp [cancelStream, ha, ih ht]

lemma cancelStream_notFound (l : List Stream) (id : Nat) (now : ℚ)
    (h : ∀ x ∈ l, x.id ≠ id) :
    cancelStream l id now = (.streamNotFound, l) := by
  induction l with
  | nil => rfl
  | cons a t ih =>
      have ha : a.id ≠ id := h a (List.mem_cons_self a t)
      have ht : ∀ x ∈ t, x.id ≠ id := fun x hx => h x (List.mem_cons_of_mem a hx)
      simp [cancelStream, ha, ih ht]

lemma claimForStream_length (l : List Stream) (id : Nat) (r : String) (now : ℚ) :
    ((claimForStream l id r now).2).length = l.length := by
  induction l with
  | nil => rfl
  | cons a t ih =>
      by_cases h : a.id = id <;> simp [claimForStream, h, ih]

lemma cancelStream_length (l : List Stream) (id : Nat) (now : ℚ) :
    ((cancelStream l id now).2).length = l.length := by
  induction l with
  | nil => rfl
  | cons a t ih =>
      by_cases h : a.id = id <;> simp [cancelStream, h, ih]

lemma claimForStream_get_cancelledAt (l : List Stream) (id : Nat) (r : String)
    (now : ℚ) :
    ∀ (i : Nat) (h : i < l.length) (h' : i < ((claimForStream l id r now).2).length),
      (((claimForStream l id r now).2).get ⟨i, h'⟩).cancelledAt =
        (l.get ⟨i, h⟩).cancelledAt := by
  induction l with
  | nil =>
      intro i h
      exact absurd h (by simp)
  | cons a t ih =>
      intro i h h'
      by_cases ha : a.id = id
      · cases i with
        | zero => simpa [claimForStream, ha] using claimUpdate_cancelledAt a r now
        | succ n => simp [claimForStream, ha]
      · cases i with
        | zero => simp [claimForStream, ha]
        | succ n =>
            have hn : n < t.length := by simpa using h
            have hn' : n < ((claimForStream t id r now).2).length := by
              rw [claimForStream_length]; exact hn
            simpa [claimForStream, ha] using ih n hn hn'

lemma cancelStream_get_cancelledAt (l : List Stream) (id : Nat) (now : ℚ)
    (hInv : cancelInvariant l) :
    ∀ (i : Nat) (h : i < l.length) (h' : i < ((cancelStream l id now).2).length)
      (u : ℚ), (l.get ⟨i, h⟩).cancelledAt = some u →
      (((cancelStream l id now).2).get ⟨i, h'⟩).cancelledAt = some u := by
  induction l with
  | nil =>
      intro i h
      exact absurd h (by simp)
  | cons a t ih =>
      intro i h h' u hu
      have hInvT : cancelInvariant t := fun x hx => hInv x (List.mem_cons_of_mem a hx)
      by_cases ha : a.id = id
      · cases i with
        | zero =>
            have hset : a.cancelledAt ≠ none := by
              simp only [List.get] at hu
              simp [hu]
            have hact : a.status ≠ .Active := hInv a (List.mem_cons_self a t) hset
            simp only [List.get] at hu
            simpa [cancelStream, ha, cancelUpdate_notActive a now hact] using hu
        | succ n =>
            simp only [List.get] at hu
            simpa [cancelStream, ha] using hu
      · cases i with
        | zero =>
            simp only [List.get] at hu
            simpa [cancelStream, ha] using hu
        | succ n =>
            have hn : n < t.length := by simpa using h
            have hn' : n < ((cancelStream t id now).2).length := by
              rw [cancelStream_length]; exact hn
            have := ih hInvT n hn hn' u (by simpa using hu)
            simpa [cancelStream, ha] using this

lemma mem_claimForStream (l : List Stream) (id : Nat) (r : String) (now : ℚ)
    (x : Stream) (hx : x ∈ (claimForStream l id r now).2) :
    x ∈ l ∨ ∃ y ∈ l, x = (claimUpdate y r now).2 := by
  induction l with
  | nil => simp [claimForStream] at hx
  | cons a t ih =>
      by_cases ha : a.id = id
      · simp only [claimForStream, ha, if_pos] at hx
        rcases List.mem_cons.mp hx with h1 | h1
        · exact Or.inr ⟨a, List.mem_cons_self a t, h1⟩
        · exact Or.inl (List.mem_cons_of_mem a h1)
      · simp only [claimForStream, ha, if_neg, not_false_iff] at hx
        rcases List.mem_cons.mp hx with h1 | h1
        · exact Or.inl (h1 ▸ List.mem_cons_self a t)
        · rcases ih h1 with h2 | ⟨y, hy, hy2⟩
          · exact Or.inl (List.mem_cons_of_mem a h2)
          · exact Or.inr ⟨y, List.mem_cons_of_mem a hy, hy2⟩

lemma mem_cancelStream (l : List Stream) (id : Nat) (now : ℚ)
    (x : Stream) (hx : x ∈ (cancelStream l id now).2) :
    x ∈ l ∨ ∃ y ∈ l, x = (cancelUpdate y now).2 := by
  induction l with
  | nil => simp [cancelStream] at hx
  | cons a t ih =>
      by_cases ha : a.id = id
      · simp only [cancelStream, ha, if_pos] at hx
        rcases List.mem_cons.mp hx with h1 | h1
        · exact Or.inr ⟨a, List.mem_cons_self a t, h1⟩
        · exact Or.inl (List.mem_cons_of_mem a h1)
      · simp only [cancelStream, ha, if_neg, not_false_iff] at hx
        rcases List.mem_cons.mp hx with h1 | h1
        · exact Or.inl (h1 ▸ List.mem_cons_self a t)
        · rcases ih h1 with h2 | ⟨y, hy, hy2⟩
          · exact Or.inl (List.mem_cons_of_mem a h2)
          · exact Or.inr ⟨y, List.mem_cons_of_mem a hy, hy2⟩

lemma cancelUpdate_inv (s : Stream) (now : ℚ)
    (hs : s.cancelledAt ≠ none → s.status ≠ .Active) :
    ((cancelUpdate s now).2).cancelledAt ≠ none →
      ((cancelUpdate s now).2).status ≠ .Active := by
  by_cases h : s.status = .Active
  · unfold cancelUpdate
    rw [if_neg (by simp [h])]
    dsimp only
    split <;> · intro _; simp
  · rw [cancelUpdate_notActive s now h]
    exact hs

lemma step_cancelInvariant {l l' : List Stream} (hInv : cancelInvariant l)
    (hstep : Step l l') : cancelInvariant l' := by
  cases hstep with
  | create recipient startMs endMs totalAda newId nowMs =>
      intro x hx
      rcases List.mem_append.mp hx with h1 | h1
      · exact hInv x h1
      · have : x = createStreamObject recipient startMs endMs totalAda newId nowMs := by
          simpa using h1
        subst this
        intro hc
        exact absurd rfl hc
  | claim id recipient now =>
      intro x hx
      rcases mem_claimForStream l id recipient now x hx with h1 | ⟨y, hy, hy2⟩
      · exact hInv x h1
      · subst hy2
        rw [claimUpdate_cancelledAt]
        intro hc
        rcases claimUpdate_status y recipient now with hst | hst
        · rw [hst]; exact hInv y hy hc
        · rw [hst]; simp
  | cancel id now =>
      intro x hx
      rcases mem_cancelStream l id now x hx with h1 | ⟨y, hy, hy2⟩
      · exact hInv x h1
      · subst hy2
        exact cancelUpdate_inv y now (hInv y hy)
  | reconcile now =>
      intro x hx
      rcases List.mem_map.mp hx with ⟨y, hy, hy2⟩
      subst hy2
      by_cases hcond : y.status = .Active ∧ y.endTime ≤ now
      · rw [if_pos hcond]
        intro _; simp
      · rw [if_neg hcond]
        exact hInv y hy

lemma reachable_cancelInvariant {l : List Stream} (h : Reachable l) :
    cancelInvariant l := by
  induction h with
  | nil => intro x hx; exact absurd hx (by simp)
  | step _ hstep ih => exact step_cancelInvariant ih hstep

lemma step_length_le {l l' : List Stream} (hstep : Step l l') :
    l.length ≤ l'.length := by
  cases hstep with
  | create recipient startMs endMs totalAda newId nowMs => simp
  | claim id recipient now => rw [claimForStream_length]
  | cancel id now => rw [cancelStream_length]
  | reconcile now => simp [updateStatuses]

lemma step_preservesCancelledAt {l l' : List Stream}
    (hInv : cancelInvariant l) (hstep : Step l l') :
    preservesCancelledAt l l' := by
  cases hstep with
  | create recipient startMs endMs totalAda newId nowMs =>
      intro i h h' t ht
      have : (l ++ [createStreamObject recipient startMs endMs totalAda newId nowMs]).get
          ⟨i, h'⟩ = l.get ⟨i, h⟩ := by
        simp only [List.get_eq_getElem]
        exact List.getElem_append_left h
      rw [this]
      exact ht
  | claim id recipient now =>
      intro i h h' t ht
      rw [claimForStream_get_cancelledAt l id recipient now i h h']
      exact ht
  | cancel id now =>
      intro i h h' t ht
      exact cancelStream_get_cancelledAt l id now hInv i h h' t ht
  | reconcile now =>
      intro i h h' t ht
      simp only [updateStatuses, List.get_eq_getElem, List.getElem_map]
      split
      · simpa using ht
      · simpa using ht

-- Claim theorems.

/-- Claim C1: for every stream s and instant now, the accrued amount computed
by calcAccrued equals 0 if now <= s.start, and otherwise
min(s.rate * (min(now, effectiveEnd(s)) - s.start), s.total) with elapsed time
taken in seconds, where effectiveEnd(s) = min(s.end, s.cancelledAt) when
cancelledAt is set and s.end otherwise. -/
theorem C1_calcAccrued_matches_spec (s : Stream) (now : ℚ) :
    calcAccrued s now = accruedSpec s now := by
  cases h : s.cancelledAt <;>
    simp [calcAccrued, accruedSpec, effectiveEndSpec, h]

/-- Claim C2 counterexample: on the scenario stream (total 100, rate 1 per
second, window 0..100000 ms, Active, uncancelled, nothing claimed) a claim by
the recipient at instant 50000 succeeds with amount 50, leaving claimed = 50,
strictly below total = 100 and before the end of the window — yet the status
is set to Paid, not left Active as the claim states. -/
theorem C2_counterexample_midstream_claim_marks_paid :
    claimForStream [sMid] 1 "bob" 50000 =
        (.claimedAmount 50, [{ sMid with claimed := 50, status := .Paid }])
      ∧ sMid.status = .Active ∧ sMid.cancelledAt = none
      ∧ (50 : ℚ) < sMid.total ∧ (50000 : ℚ) < sMid.endTime := by
  refine ⟨?_, rfl, rfl, by norm_num [sMid], by norm_num [sMid]⟩
  simp [claimForStream, claimUpdate, calcAccrued, eps, sMid, jsToLowerCase]
  norm_num

/-- Claim C2 (amended): for every stream s and instant now with
claimable(s, now) > 0, a claim by the stream's recipient succeeds, adds
exactly claimable(s, now) to s.claimed, and returns that amount; since the
updated claimed equals the recomputed accrual and min(total, accrued) never
exceeds the accrual, the 1e-6 tolerance check always passes, so the status is
set to Paid after every successful claim — including a mid-stream claim that
leaves claimed strictly below total on an uncancelled stream before its
end. -/
theorem C2_claim_success_sets_paid (l1 l2 : List Stream) (s : Stream)
    (r : String) (now : ℚ) (hl1 : ∀ x ∈ l1, x.id ≠ s.id)
    (hr : r ≠ "") (hmatch : jsToLowerCase r = jsToLowerCase s.recipient)
    (h : s.claimed < calcAccrued s now) :
    claimForStream (l1 ++ s :: l2) s.id r now =
      (.claimedAmount (calcAccrued s now - s.claimed),
       l1 ++ { s with claimed := calcAccrued s now, status := .Paid } :: l2) := by
  rw [claimForStream_append l1 s l2 r now hl1,
    claimUpdate_success s r now hr hmatch h]

/-- Witness for C2 (amended): the scenario stream at instant 50000 with
recipient bob satisfies the hypotheses, and the theorem instantiates to the
concrete claim result. -/
theorem C2_claim_success_sets_paid_witness :
    claimForStream [sMid] sMid.id "bob" 50000 =
      (.claimedAmount (calcAccrued sMid 50000 - sMid.claimed),
       [{ sMid with claimed := calcAccrued sMid 50000, status := .Paid }]) := by
  have h := C2_claim_success_sets_paid [] [] sMid "bob" 50000 (by simp)
    (by decide) rfl (by norm_num [calcAccrued, sMid])
  simpa using h

/-- Claim C3: for every stream s with status Active and every instant now,
cancel succeeds, sets cancelledAt = now, leaves claimed unchanged, sets the
status to Paid when claimed + 1e-6 >= accrued(s, now) and to Cancelled
otherwise, and reports total - accrued(s, now) as the amount returned to the
sender. -/
theorem C3_cancel_active_settles (l1 l2 : List Stream) (s : Stream) (now : ℚ)
    (hl1 : ∀ x ∈ l1, x.id ≠ s.id) (hs : s.status = .Active) :
    cancelStream (l1 ++ s :: l2) s.id now =
      (.returnedAmount (s.total - calcAccrued s now),
       l1 ++ { s with
               cancelledAt := some now,
               status := (if s.claimed + eps ≥ calcAccrued s now then Status.Paid
                          else Status.Cancelled) } :: l2) := by
  rw [cancelStream_append l1 s l2 now hl1]
  unfold cancelUpdate
  rw [if_neg (by simp [hs])]
  dsimp only
  by_cases hc : s.claimed + eps ≥ calcAccrued s now
  · rw [if_pos hc, if_pos hc]
  · rw [if_neg hc, if_neg hc]

/-- Witness for C3: cancelling the Active scenario stream at instant 30000
returns 70 = 100 - 30 to the sender, stamps cancelledAt = 30000, keeps
claimed = 0 and sets status Cancelled (0 + 1e-6 < 30). -/
theorem C3_cancel_active_settles_witness :
    cancelStream [sMid] sMid.id 30000 =
      (.returnedAmount 70,
       [{ sMid with cancelledAt := some 30000, status := Status.Cancelled }]) := by
  have ha : calcAccrued sMid 30000 = 30 := by norm_num [calcAccrued, sMid]
  have h := C3_cancel_active_settles [] [] sMid 30000 (by simp) rfl
  simp only [List.nil_append] at h
  rw [ha] at h
  rw [h]
  norm_num [sMid, eps]

/-- Claim C4 counterexample: the source's cancel carries no caller
authorization.  Invoked with caller mallory, who is not the sender alice of
the stream, cancel does not fail with Unauthorized: it succeeds, mutates the
stream (stamps cancelledAt, flips status to Cancelled) and reports 70 returned
to the sender. -/
theorem C4_counterexample_no_sender_check :
    cancelWithCaller [sMid] 1 "mallory" 30000 =
        (.returnedAmount 70,
         [{ sMid with cancelledAt := some 30000, status := Status.Cancelled }])
      ∧ sMid.sender ≠ "mallory" := by
  constructor
  · simp [cancelWithCaller, cancelStream, cancelUpdate, calcAccrued, eps, sMid]
    norm_num
  · decide

/-- Claim C4 (amended): cancel(id, caller, now) fails, mutating no stream,
when no stream has the given id, and fails with the distinct NotActive
outcome, mutating no stream, when the stream with the id is not Active; the
two failure kinds are distinguishable.  The Unauthorized clause of the claim
is dropped: the source performs no caller check, so a caller other than the
sender is not rejected (see the counterexample). -/
theorem C4_cancel_failure_cases (streams l1 l2 : List Stream) (s : Stream)
    (id : Nat) (caller : String) (now : ℚ) :
    ((∀ x ∈ streams, x.id ≠ id) →
        cancelWithCaller streams id caller now = (.streamNotFound, streams))
    ∧ (streams = l1 ++ s :: l2 → (∀ x ∈ l1, x.id ≠ id) → s.id = id →
        s.status ≠ .Active →
        cancelWithCaller streams id caller now = (.notActive, streams))
    ∧ CancelOutcome.streamNotFound ≠ CancelOutcome.notActive := by
  refine ⟨?_, ?_, by simp⟩
  · intro h
    exact cancelStream_notFound streams id now h
  · intro hdec hl1 hsid hact
    subst hdec
    subst hsid
    have h := cancelStream_append l1 s l2 now hl1
    rw [cancelWithCaller, h, cancelUpdate_notActive s now hact]

/-- Witness for C4 (amended): on concrete states, cancel of an unknown id
returns StreamNotFound with the state untouched, and cancel of a Paid stream
returns NotActive with the state untouched. -/
theorem C4_cancel_failure_cases_witness :
    cancelWithCaller [sMid] 2 "bob" 1000 = (.streamNotFound, [sMid])
    ∧ cancelWithCaller [sPaid] 1 "alice" 1000 = (.notActive, [sPaid]) := by
  constructor
  · refine (C4_cancel_failure_cases [sMid] [] [] sMid 2 "bob" 1000).1 ?_
    intro x hx
    rw [List.mem_singleton] at hx
    subst hx
    decide
  · exact (C4_cancel_failure_cases [sPaid] [] [] sPaid 1 "alice" 1000).2.1
      rfl (by simp) rfl (by decide)

/-- Claim C5 counterexample: a Paid stream can still be mutated by claim: on
the scenario stream marked Paid by the reconciler with nothing claimed, a
claim by the recipient at the end of the window succeeds and changes claimed
from 0 to 100, so claim on a Paid stream is not without effect. -/
theorem C5_counterexample_claim_mutates_paid :
    claimForStream [sPaid] 1 "bob" 100000 =
        (.claimedAmount 100, [{ sPaid with claimed := 100 }])
      ∧ sPaid.status = .Paid ∧ sPaid.claimed = 0 := by
  refine ⟨?_, rfl, rfl⟩
  simp [claimForStream, claimUpdate, calcAccrued, eps, sPaid, sMid, jsToLowerCase]
  norm_num

/-- Claim C5 (amended): for every stream s with status Paid, cancel has no
effect (NotActive, state unchanged) and the reconciler sweep leaves s
unchanged; claim can still mutate claimed (see the counterexample), but the
stream that replaces s after a claim always still has status Paid, so no
operation ever transitions a stream out of Paid. -/
theorem C5_paid_terminal (l1 l2 : List Stream) (s : Stream) (r : String)
    (now : ℚ) (hl1 : ∀ x ∈ l1, x.id ≠ s.id) (hp : s.status = .Paid) :
    cancelStream (l1 ++ s :: l2) s.id now = (.notActive, l1 ++ s :: l2)
    ∧ (claimForStream (l1 ++ s :: l2) s.id r now).2 =
        l1 ++ (claimUpdate s r now).2 :: l2
    ∧ (claimUpdate s r now).2.status = .Paid
    ∧ updateStatuses (l1 ++ s :: l2) now =
        updateStatuses l1 now ++ s :: updateStatuses l2 now := by
  refine ⟨?_, ?_, ?_, ?_⟩
  · rw [cancelStream_append l1 s l2 now hl1,
      cancelUpdate_notActive s now (by simp [hp])]
  · rw [claimForStream_append l1 s l2 r now hl1]
  · rcases claimUpdate_status s r now with h | h
    · rw [h, hp]
    · exact h
  · simp [updateStatuses, hp]

/-- Witness for C5 (amended): on the concrete Paid scenario stream, cancel is
refused with the state untouched and the stream left by a claim still has
status Paid. -/
theorem C5_paid_terminal_witness :
    cancelStream [sPaid] sPaid.id 100000 = (.notActive, [sPaid])
    ∧ (claimUpdate sPaid "bob" 100000).2.status = .Paid := by
  have h := C5_paid_terminal [] [] sPaid "bob" 100000 (by simp) rfl
  exact ⟨by simpa using h.1, h.2.2.1⟩

-- Shared helpers about the early-cancelled fixture: cancelling the stream
-- with future start 10000 at instant 5000 yields sEarlyCancel, and that state
-- is reachable by a create followed by a cancel.

lemma cancel_create_eq_sEarlyCancel :
    (cancelStream [createStreamObject "bob" 10000 110000 (some 100) 1 0] 1 5000).2
      = [sEarlyCancel] := by
  simp [cancelStream, cancelUpdate, calcAccrued, createStreamObject,
    sEarlyCancel, eps]
  norm_num

lemma reachable_sEarlyCancel : Reachable [sEarlyCancel] := by
  rw [← cancel_create_eq_sEarlyCancel]
  exact Reachable.step
    (Reachable.step Reachable.nil (Step.create [] "bob" 10000 110000 (some 100) 1 0))
    (Step.cancel _ 1 5000)

/-- Claim C6 counterexample: the sequence create (start 10000, end 110000,
total 100) followed by cancel at instant 5000 — a cancel before the stream's
start — reaches a state whose stream has cancelledAt = 5000 strictly below
start = 10000, refuting the invariant cancelledAt >= start. -/
theorem C6_counterexample_cancelledAt_before_start :
    (cancelStream [createStreamObject "bob" 10000 110000 (some 100) 1 0] 1 5000).2
        = [sEarlyCancel]
    ∧ sEarlyCancel.cancelledAt = some 5000
    ∧ sEarlyCancel.start = 10000
    ∧ (5000 : ℚ) < sEarlyCancel.start
    ∧ Reachable [sEarlyCancel] := by
  refine ⟨cancel_create_eq_sEarlyCancel, rfl, rfl,
    by norm_num [sEarlyCancel, createStreamObject], reachable_sEarlyCancel⟩

/-- Claim C6 (amended): along every sequence of create/claim/cancel/reconcile
operations from the empty state, once a stream's cancelledAt is set it is
never changed by any later operation (the streams array only grows, and the
stream at each existing position keeps its cancellation stamp).  The clause
cancelledAt >= start of the claim is dropped: a cancel processed before the
stream's start stamps cancelledAt < start (see the counterexample). -/
theorem C6_cancelledAt_immutable {l l' : List Stream} (hreach : Reachable l)
    (hstep : Step l l') :
    l.length ≤ l'.length ∧ preservesCancelledAt l l' :=
  ⟨step_length_le hstep,
   step_preservesCancelledAt (reachable_cancelInvariant hreach) hstep⟩

/-- Witness for C6 (amended): from the reachable state holding the
early-cancelled stream, a reconciler sweep is one more operation, and the
stream still carries cancelledAt = 5000 afterwards. -/
theorem C6_cancelledAt_immutable_witness :
    ((updateStatuses [sEarlyCancel] 999999).get
        ⟨0, by simp [updateStatuses]⟩).cancelledAt = some 5000 := by
  have h := (C6_cancelledAt_immutable reachable_sEarlyCancel
    (Step.reconcile [sEarlyCancel] 999999)).2
  exact h 0 (by simp) (by simp [updateStatuses]) 5000 rfl

/-- Claim C7 counterexample: the reachable early-cancelled stream (cancelled
at 5000, before its start 10000) has accrued -5 at instant 20000: calcAccrued
can be negative, refuting 0 <= accrued(s, now). -/
theorem C7_counterexample_negative_accrued :
    calcAccrued sEarlyCancel 20000 = -5
    ∧ calcAccrued sEarlyCancel 20000 < 0
    ∧ Reachable [sEarlyCancel] := by
  have h : calcAccrued sEarlyCancel 20000 = -5 := by
    norm_num [calcAccrued, sEarlyCancel, createStreamObject]
  exact ⟨h, by rw [h]; norm_num, reachable_sEarlyCancel⟩

/-- Claim C7 (amended): 0 <= accrued(s, now) <= s.total holds for every
stream with nonnegative rate and total, start <= end, and whose cancellation
stamp (when present) is not before start.  The unrestricted claim fails: a
reachable stream cancelled before its start has negative accrued (see the
counterexample); only the upper bound is unconditional on such streams. -/
theorem C7_accrued_bounds (s : Stream) (now : ℚ) (hr : 0 ≤ s.rate)
    (ht : 0 ≤ s.total) (hse : s.start ≤ s.endTime)
    (hc : ∀ c, s.cancelledAt = some c → s.start ≤ c) :
    0 ≤ calcAccrued s now ∧ calcAccrued s now ≤ s.total := by
  have heff : s.start ≤ effectiveEndSpec s := by
    cases hcc : s.cancelledAt with
    | none => simpa [effectiveEndSpec, hcc] using hse
    | some c =>
        simp only [effectiveEndSpec, hcc]
        exact le_min hse (hc c hcc)
  rw [calcAccrued_eq]
  by_cases hnow : now ≤ s.start
  · rw [if_pos hnow]
    exact ⟨le_refl 0, ht⟩
  · rw [if_neg hnow]
    push_neg at hnow
    have helapsed : (0 : ℚ) ≤ min now (effectiveEndSpec s) - s.start := by
      have := le_min (le_of_lt hnow) heff
      linarith
    constructor
    · exact le_min (mul_nonneg hr (div_nonneg helapsed (by norm_num))) ht
    · exact min_le_right _ _

/-- Witness for C7 (amended): the uncancelled scenario stream satisfies the
hypotheses, and its accrual at instant 50000 lies between 0 and total. -/
theorem C7_accrued_bounds_witness :
    0 ≤ calcAccrued sMid 50000 ∧ calcAccrued sMid 50000 ≤ sMid.total := by
  exact C7_accrued_bounds sMid 50000 (by norm_num [sMid]) (by norm_num [sMid])
    (by norm_num [sMid]) (by simp [sMid])

/-- Claim C8 counterexample: createStreamObject rejects nothing.  With
totalAda = -5 (total <= 0) it does not fail with InvalidStreamParameters: it
silently falls back to the fixed per-minute policy and returns an Active
stream with total 5/3 and rate 1/60.  With end = start (end <= start) it also
succeeds, clamping the duration to one second so that rate = total. -/
theorem C8_counterexample_create_accepts_invalid :
    createStreamObject "bob" 0 100000 (some (-5)) 1 0 =
        { id := 1, sender := "You (Local)", recipient := "bob",
          total := 5 / 3, rate := 1 / 60, start := 0, endTime := 100000,
          cancelledAt := none, claimed := 0, status := .Active, createdAt := 0 }
      ∧ ((-5 : ℚ) ≤ 0)
      ∧ createStreamObject "bob" 200 200 (some 10) 2 0 =
        { id := 2, sender := "You (Local)", recipient := "bob",
          total := 10, rate := 10, start := 200, endTime := 200,
          cancelledAt := none, claimed := 0, status := .Active, createdAt := 0 } := by
  refine ⟨?_, by norm_num, ?_⟩
  · simp [createStreamObject, FIXED_PER_MINUTE]
    norm_num
  · simp [createStreamObject, FIXED_PER_MINUTE]

/-- Claim C8 (amended): createStreamObject never fails; on a wallet amount
totalAda > 0 it produces a stream with status Active, claimed 0, cancelledAt
absent and rate = totalAda / durationSeconds, the duration in seconds clamped
to a minimum of 1.  The failure clause of the claim is dropped: non-positive
totals are not rejected but fall back to the fixed per-minute policy, and
end <= start is absorbed by the clamp (see the counterexample); the input
validation the spec describes lives in the UI handler, not in stream
creation. -/
theorem C8_create_valid_stream (r : String) (a b t : ℚ) (i : Nat) (c : ℚ)
    (ht : 0 < t) :
    createStreamObject r a b (some t) i c =
      { id := i, sender := "You (Local)", recipient := r, total := t,
        rate := t / max 1 ((b - a) / 1000), start := a, endTime := b,
        cancelledAt := none, claimed := 0, status := .Active, createdAt := c } := by
  simp [createStreamObject, ht]

/-- Witness for C8 (amended): with total 100 over the window 0..100000 ms the
created stream is Active with claimed 0, no cancellation stamp and rate 1 per
second. -/
theorem C8_create_valid_stream_witness :
    createStreamObject "bob" 0 100000 (some 100) 7 0 =
      { id := 7, sender := "You (Local)", recipient := "bob", total := 100,
        rate := 1, start := 0, endTime := 100000, cancelledAt := none,
        claimed := 0, status := .Active, createdAt := 0 } := by
  have h := C8_create_valid_stream "bob" 0 100000 100 7 0 (by norm_num)
  rw [h]
  norm_num

/-- Claim C9: a reconciler sweep at instant now keeps the array's length,
maps every Active stream whose end has been reached (even with claimed still
0) to the same stream with status Paid, leaves every other stream and every
other field unchanged, and running the sweep a second time at the same
instant changes nothing. -/
theorem C9_reconciler_sweep (l : List Stream) (now : ℚ) :
    (updateStatuses l now).length = l.length
    ∧ (∀ (i : Nat) (h : i < l.length) (h' : i < (updateStatuses l now).length),
        (updateStatuses l now).get ⟨i, h'⟩ =
          if (l.get ⟨i, h⟩).status = .Active ∧ (l.get ⟨i, h⟩).endTime ≤ now
          then { l.get ⟨i, h⟩ with status := Status.Paid } else l.get ⟨i, h⟩)
    ∧ updateStatuses (updateStatuses l now) now = updateStatuses l now := by
  refine ⟨by simp [updateStatuses], ?_, ?_⟩
  · intro i h h'
    simp [updateStatuses, List.get_eq_getElem]
  · unfold updateStatuses
    rw [List.map_map]
    apply List.map_congr_left
    intro s _
    by_cases hcond : s.status = .Active ∧ s.endTime ≤ now
    · have h2 : ¬(({ s with status := Status.Paid } : Stream).status = .Active
          ∧ ({ s with status := Status.Paid } : Stream).endTime ≤ now) := by
        simp
      simp only [Function.comp_apply, if_pos hcond, if_neg h2]
    · simp only [Function.comp_apply, if_neg hcond]

/-- Witness for C9: sweeping the Active scenario stream at its end instant
flips it to Paid with claimed still 0, and a second sweep at the same instant
changes nothing. -/
theorem C9_reconciler_sweep_witness :
    (updateStatuses [sMid] 100000).get ⟨0, by simp [updateStatuses]⟩ =
        { sMid with status := Status.Paid }
    ∧ updateStatuses (updateStatuses [sMid] 100000) 100000 =
        updateStatuses [sMid] 100000 := by
  constructor
  · have h := (C9_reconciler_sweep [sMid] 100000).2.1 0 (by simp)
      (by simp [updateStatuses])
    rw [if_pos ⟨rfl, by norm_num [sMid]⟩] at h
    exact h
  · exact (C9_reconciler_sweep [sMid] 100000).2.2

/-- Claim C10: immediately after a successful claim at instant now, the
stream's claimed equals accrued(s, now) exactly, so claimable is 0 and a
second claim at the same instant fails with NothingToClaim, leaving the state
unchanged. -/
theorem C10_claim_exhausts_claimable (l1 l2 : List Stream) (s : Stream)
    (r : String) (now : ℚ) (hl1 : ∀ x ∈ l1, x.id ≠ s.id) (hr : r ≠ "")
    (hmatch : jsToLowerCase r = jsToLowerCase s.recipient)
    (h : s.claimed < calcAccrued s now) :
    ((claimUpdate s r now).2).claimed = calcAccrued s now
    ∧ claimable (claimUpdate s r now).2 now = 0
    ∧ claimForStream ((claimForStream (l1 ++ s :: l2) s.id r now).2) s.id r now
        = (.nothingToClaim, (claimForStream (l1 ++ s :: l2) s.id r now).2) := by
  have hcu := claimUpdate_success s r now hr hmatch h
  have hs2 : (claimUpdate s r now).2 =
      { s with claimed := calcAccrued s now, status := .Paid } := by rw [hcu]
  have hcond : ¬(r = "" ∨ jsToLowerCase r ≠ jsToLowerCase s.recipient) := by
    push_neg
    exact ⟨hr, hmatch⟩
  have hsecond : claimUpdate ((claimUpdate s r now).2) r now =
      (.nothingToClaim, (claimUpdate s r now).2) := by
    rw [hs2]
    unfold claimUpdate
    rw [if_neg hcond]
    dsimp only
    rw [calcAccrued_update_claimed_status]
    rw [if_pos (by simp)]
  refine ⟨by rw [hs2], ?_, ?_⟩
  · rw [hs2]
    unfold claimable
    rw [calcAccrued_update_claimed_status]
    simp
  · rw [claimForStream_append l1 s l2 r now hl1]
    dsimp only
    have hid : (claimUpdate s r now).2.id = s.id := by rw [hs2]
    have happ2 := claimForStream_append l1 ((claimUpdate s r now).2) l2 r now
      (by intro x hx; rw [hid]; exact hl1 x hx)
    rw [← hid, happ2, hsecond]

/-- Witness for C10: on the scenario stream at instant 50000 the claim leaves
claimed = accrued = 50, claimable 0, and a second claim at the same instant
returns NothingToClaim with the state unchanged. -/
theorem C10_claim_exhausts_claimable_witness :
    ((claimUpdate sMid "bob" 50000).2).claimed = calcAccrued sMid 50000
    ∧ claimable (claimUpdate sMid "bob" 50000).2 50000 = 0
    ∧ claimForStream ((claimForStream [sMid] sMid.id "bob" 50000).2)
        sMid.id "bob" 50000
        = (.nothingToClaim, (claimForStream [sMid] sMid.id "bob" 50000).2) := by
  have h := C10_claim_exhausts_claimable [] [] sMid "bob" 50000 (by simp)
    (by decide) rfl (by norm_num [calcAccrued, sMid])
  simpa using h

end Streaming
